import Mathlib

/-!
Shallow embedding of the core logic of `catmon_img_tag_app.py` (catmon-img-tag):
the tag ledger (session stats, consecutive-tag streak, previous-tag record),
the tagging/undo operations, the brightness estimator, and the main image
fetching loop with its duplicate guard and auto-discard policy.

Storage (google drive) calls are modelled by boolean success parameters:
a `true` flag means the corresponding remote call succeeded, `false` means it
raised an exception.
-/

namespace CatmonImgTag

/-- The four tags of `tag_folder_ids_d`: each is bound to a destination folder. -/
inductive Tag where
  | Boo
  | Simba
  | Discard
  | AutoDiscard
deriving DecidableEq, Repr, Fintype

/-- The keys of the session `stats` dictionary: the four tags plus `Undo`. -/
inductive Counter where
  | tag (t : Tag)
  | undo
deriving DecidableEq, Repr, Fintype

/-- The session `stats` dictionary (`stats_d`): one integer per counter key. -/
structure Stats where
  boo : ℤ
  simba : ℤ
  discard : ℤ
  autoDiscard : ℤ
  undo : ℤ
deriving DecidableEq, Repr

/-- Look up a counter value, `st.session_state["stats"][key]`. -/
def Stats.get (st : Stats) : Counter → ℤ
  | Counter.tag Tag.Boo => st.boo
  | Counter.tag Tag.Simba => st.simba
  | Counter.tag Tag.Discard => st.discard
  | Counter.tag Tag.AutoDiscard => st.autoDiscard
  | Counter.undo => st.undo

/-- In-place add to one counter, `st.session_state["stats"][key] += d`. -/
def Stats.add (st : Stats) (c : Counter) (d : ℤ) : Stats :=
  match c with
  | Counter.tag Tag.Boo => { st with boo := st.boo + d }
  | Counter.tag Tag.Simba => { st with simba := st.simba + d }
  | Counter.tag Tag.Discard => { st with discard := st.discard + d }
  | Counter.tag Tag.AutoDiscard => { st with autoDiscard := st.autoDiscard + d }
  | Counter.undo => { st with undo := st.undo + d }

/-- Sum of all five counters of the stats dictionary. -/
def Stats.total (st : Stats) : ℤ :=
  st.boo + st.simba + st.discard + st.autoDiscard + st.undo

/-- The session `consec` dictionary: name of the label of the current
consecutive-tag streak (a tag name or the string "Undo", `None` initially)
and its length (`tot`). -/
structure Consec where
  name : Option Counter
  tot : ℤ
deriving DecidableEq, Repr

/-- The session `previous_tag` dictionary: the single undoable action. -/
structure PreviousTag where
  image_name : Option String
  image_id : Option String
  tag_name : Option Tag
deriving DecidableEq, Repr

/-- The whole session state touched by the core logic. -/
structure SessionState where
  stats : Stats
  consec : Consec
  previous_tag : PreviousTag
deriving DecidableEq, Repr

/-- The session state as initialised on first run (lines 63-98 of the app). -/
def init_state : SessionState :=
  { stats := { boo := 0, simba := 0, discard := 0, autoDiscard := 0, undo := 0 }
    consec := { name := none, tot := 0 }
    previous_tag := { image_name := none, image_id := none, tag_name := none } }

/-- Outcome of `tag_image`: the move succeeded; the move raised and was caught
(`st.error` shown, early return); or the preliminary parents lookup raised
outside the `try` block (exception propagates to the caller). -/
inductive TagOutcome where
  | success
  | storageError
  | uncaughtError
deriving DecidableEq, Repr

/-- Embedding of `tag_image(image_name, image_id, tag_name)`.
`getOk` is the success of the `files().get(fields='parents')` lookup, which
runs before the `try`; `moveOk` is the success of the `files().update` move
inside the `try`.  Either failure leaves the session state untouched; only
after a successful move are `consec`, `stats` and `previous_tag` updated. -/
def tag_image (s : SessionState) (image_name image_id : String) (tag_name : Tag)
    (getOk moveOk : Bool) : SessionState × TagOutcome :=
  if getOk = false then
    (s, TagOutcome.uncaughtError)
  else if moveOk = false then
    (s, TagOutcome.storageError)
  else
    let consec1 :=
      if s.consec.name = some (Counter.tag tag_name) then
        { s.consec with tot := s.consec.tot + 1 }
      else
        { name := some (Counter.tag tag_name), tot := 1 }
    let stats1 := s.stats.add (Counter.tag tag_name) 1
    let prev1 : PreviousTag :=
      { image_name := some image_name
        image_id := some image_id
        tag_name := some tag_name }
    ({ stats := stats1, consec := consec1, previous_tag := prev1 },
     TagOutcome.success)

/-- Outcome of `undo_tag_image`: success; "Nothing to undo" (guard fails);
`KeyError` from `tag_folder_ids_d[tag_name]` when the stored tag name is
`None` (unreachable in practice); or the (uncaught) failure of the move. -/
inductive UndoOutcome where
  | success
  | nothingToUndo
  | keyError
  | storageError
deriving DecidableEq, Repr

/-- Embedding of `undo_tag_image()`.  The guard tests
`previous_tag["image_name"] is None`; then the tag folder of the stored tag
name is looked up (a `None` tag name would raise `KeyError`); then the move
back to the root folder runs (not wrapped in a `try`: a failure propagates
before any ledger mutation); on success the ledger is rolled back. -/
def undo_tag_image (s : SessionState) (moveOk : Bool) : SessionState × UndoOutcome :=
  if s.previous_tag.image_name = none then
    (s, UndoOutcome.nothingToUndo)
  else
    match s.previous_tag.tag_name with
    | none => (s, UndoOutcome.keyError)
    | some tag_name =>
      if moveOk = false then
        (s, UndoOutcome.storageError)
      else
        let stats1 := s.stats.add (Counter.tag tag_name) (-1)
        let consec1 : Consec := { s.consec with tot := s.consec.tot - 1 }
        let consec2 :=
          if consec1.tot = 0 then
            ({ name := some Counter.undo, tot := 1 } : Consec)
          else consec1
        let stats2 := stats1.add Counter.undo 1
        let prev1 : PreviousTag :=
          { image_name := none, image_id := none, tag_name := none }
        ({ stats := stats2, consec := consec2, previous_tag := prev1 },
         UndoOutcome.success)

/-- One pixel's red/green/blue channel values (0-255 scale). -/
structure RGB where
  r : ℚ
  g : ℚ
  b : ℚ
deriving DecidableEq, Repr

/-- Mean of one channel over all pixels of an image
(`ImageStat.Stat(image_obj).mean`). -/
def channelMean (f : RGB → ℚ) (pixels : List RGB) : ℚ :=
  (pixels.map f).sum / pixels.length

/-- The perceived-brightness coefficient of the red channel (`R_CONST`). -/
def R_CONST : ℝ := 0.299

/-- The perceived-brightness coefficient of the green channel (`G_CONST`). -/
def G_CONST : ℝ := 0.587

/-- The perceived-brightness coefficient of the blue channel (`B_CONST`). -/
def B_CONST : ℝ := 0.114

/-- Embedding of `brightness(image_obj)` applied to the per-channel means
`r, g, b = stat.mean`: `math.sqrt(R_CONST*(r**2) + G_CONST*(g**2) + B_CONST*(b**2))`,
idealised over the reals. -/
noncomputable def brightness (r g b : ℝ) : ℝ :=
  Real.sqrt (R_CONST * r ^ 2 + G_CONST * g ^ 2 + B_CONST * b ^ 2)

/-- Brightness of an image given by its pixel list: the per-channel means are
taken across all pixels and fed to `brightness`. -/
noncomputable def imageBrightness (pixels : List RGB) : ℝ :=
  brightness (channelMean RGB.r pixels) (channelMean RGB.g pixels)
    (channelMean RGB.b pixels)

/-- The auto-discard threshold, `IMAGE_BRIGHTNESS_THRESHOLD = 25`. -/
def IMAGE_BRIGHTNESS_THRESHOLD : ℝ := 25

/-- One image as fetched by `get_drive_image`: name, drive file id and
decoded pixel data. -/
structure Item where
  name : String
  id : String
  pixels : List RGB
deriving DecidableEq, Repr

open Classical in
/-- Embedding of the main image-fetching loop (`while image_not_ready`,
lines 299-327 of the app).  The successive results of `get_drive_image`
are supplied as the list `fetches` (an empty listing makes
`response.get('files', [])[0]` raise, modelled as `none`).  Per iteration:
if the fetched id equals `previous_tag["image_id"]`, the `duplicate`
counter is bumped and, while it is below 3, the fetch is retried after a
short sleep; otherwise (or once the counter reaches 3) the brightness check
runs: an image at or below `IMAGE_BRIGHTNESS_THRESHOLD` is tagged
`Auto-Discard` (a successful move assumed) and the fetch repeats, and a
brighter image is returned together with the final session state. -/
noncomputable def main_tagging_loop :
    SessionState → ℕ → List Item → Option (Item × SessionState)
  | _, _, [] => none
  | s, duplicate, img :: rest =>
    if some img.id = s.previous_tag.image_id then
      if duplicate + 1 < 3 then
        main_tagging_loop s (duplicate + 1) rest
      else if imageBrightness img.pixels ≤ IMAGE_BRIGHTNESS_THRESHOLD then
        main_tagging_loop
          (tag_image s img.name img.id Tag.AutoDiscard true true).1
          (duplicate + 1) rest
      else
        some (img, s)
    else if imageBrightness img.pixels ≤ IMAGE_BRIGHTNESS_THRESHOLD then
      main_tagging_loop
        (tag_image s img.name img.id Tag.AutoDiscard true true).1
        duplicate rest
    else
      some (img, s)

/-- A trace of user taggings, each a `(image_name, image_id, tag)` triple
whose storage move succeeds, applied in order via `tag_image`. -/
def apply_tags (s : SessionState) : List (String × String × Tag) → SessionState
  | [] => s
  | (n, i, t) :: rest => apply_tags (tag_image s n i t true true).1 rest

/-- The session states reachable from the initial state by any sequence of
taggings, undos (successful or failed) and runs of the fetching loop. -/
inductive Reachable : SessionState → Prop
  | init : Reachable init_state
  | tag (s : SessionState) (n i : String) (t : Tag) (gOk mOk : Bool) :
      Reachable s → Reachable (tag_image s n i t gOk mOk).1
  | undo (s : SessionState) (mOk : Bool) :
      Reachable s → Reachable (undo_tag_image s mOk).1
  | fetch (s : SessionState) (dup : ℕ) (fetches : List Item)
      (it : Item) (s2 : SessionState) :
      Reachable s → main_tagging_loop s dup fetches = some (it, s2) →
      Reachable s2

/-! ### Basic lemmas about the stats dictionary -/

theorem Stats.get_add (st : Stats) (c c2 : Counter) (d : ℤ) :
    (st.add c d).get c2 = if c2 = c then st.get c2 + d else st.get c2 := by
  cases c with
  | tag t =>
    cases c2 with
    | tag t2 => cases t <;> cases t2 <;> simp [Stats.add, Stats.get]
    | undo => cases t <;> simp [Stats.add, Stats.get]
  | undo =>
    cases c2 with
    | tag t2 => cases t2 <;> simp [Stats.add, Stats.get]
    | undo => simp [Stats.add, Stats.get]

theorem Stats.total_add (st : Stats) (c : Counter) (d : ℤ) :
    (st.add c d).total = st.total + d := by
  cases c with
  | tag t => cases t <;> simp [Stats.add, Stats.total] <;> ring
  | undo => simp [Stats.add, Stats.total]; ring

theorem tag_image_stats (s : SessionState) (n i : String) (t : Tag) :
    ((tag_image s n i t true true).1).stats = s.stats.add (Counter.tag t) 1 := by
  by_cases h : s.consec.name = some (Counter.tag t) <;>
    simp [tag_image, h]

theorem tag_image_previous_tag (s : SessionState) (n i : String) (t : Tag) :
    ((tag_image s n i t true true).1).previous_tag =
      { image_name := some n, image_id := some i, tag_name := some t } := by
  by_cases h : s.consec.name = some (Counter.tag t) <;>
    simp [tag_image, h]

/-- C1: a successful `tag_image` bumps exactly the tagged counter by one,
extends the streak when the label repeats and resets it to `(label, 1)`
otherwise, and records the tagged image as the new previous tag; no other
ledger field changes. -/
theorem tag_image_success_spec (s : SessionState) (n i : String) (t : Tag)
    (c : Counter) (hc : c ≠ Counter.tag t) :
    (tag_image s n i t true true).2 = TagOutcome.success ∧
    ((tag_image s n i t true true).1).stats.get (Counter.tag t) =
      s.stats.get (Counter.tag t) + 1 ∧
    ((tag_image s n i t true true).1).stats.get c = s.stats.get c ∧
    (s.consec.name = some (Counter.tag t) →
      ((tag_image s n i t true true).1).consec =
        { name := s.consec.name, tot := s.consec.tot + 1 }) ∧
    (s.consec.name ≠ some (Counter.tag t) →
      ((tag_image s n i t true true).1).consec =
        { name := some (Counter.tag t), tot := 1 }) ∧
    ((tag_image s n i t true true).1).previous_tag =
      { image_name := some n, image_id := some i, tag_name := some t } := by
  refine ⟨?_, ?_, ?_, ?_, ?_, tag_image_previous_tag s n i t⟩
  · by_cases h : s.consec.name = some (Counter.tag t) <;> simp [tag_image, h]
  · rw [tag_image_stats, Stats.get_add]; simp
  · rw [tag_image_stats, Stats.get_add]; simp [hc]
  · intro h; simp [tag_image, h]
  · intro h; simp [tag_image, h]

/-- C1 witness: tagging Boo from the freshly initialised session. -/
theorem tag_image_success_spec_witness :
    (Counter.undo ≠ Counter.tag Tag.Boo) ∧
    ((tag_image init_state "img7" "id7" Tag.Boo true true).2 = TagOutcome.success ∧
    ((tag_image init_state "img7" "id7" Tag.Boo true true).1).stats.get
        (Counter.tag Tag.Boo) =
      init_state.stats.get (Counter.tag Tag.Boo) + 1 ∧
    ((tag_image init_state "img7" "id7" Tag.Boo true true).1).stats.get
        Counter.undo = init_state.stats.get Counter.undo ∧
    (init_state.consec.name = some (Counter.tag Tag.Boo) →
      ((tag_image init_state "img7" "id7" Tag.Boo true true).1).consec =
        { name := init_state.consec.name, tot := init_state.consec.tot + 1 }) ∧
    (init_state.consec.name ≠ some (Counter.tag Tag.Boo) →
      ((tag_image init_state "img7" "id7" Tag.Boo true true).1).consec =
        { name := some (Counter.tag Tag.Boo), tot := 1 }) ∧
    ((tag_image init_state "img7" "id7" Tag.Boo true true).1).previous_tag =
      { image_name := some "img7", image_id := some "id7",
        tag_name := some Tag.Boo }) :=
  ⟨by decide,
   tag_image_success_spec init_state "img7" "id7" Tag.Boo Counter.undo (by decide)⟩

/-- C2: when the storage move inside `tag_image` fails, the failure is
reported (the caught-exception branch) and the whole session state is
returned untouched. -/
theorem tag_image_move_failure_spec (s : SessionState) (n i : String) (t : Tag) :
    tag_image s n i t true false = (s, TagOutcome.storageError) := by
  simp [tag_image]

theorem undo_nothing (s : SessionState) (ok : Bool)
    (h : s.previous_tag.image_name = none) :
    undo_tag_image s ok = (s, UndoOutcome.nothingToUndo) := by
  simp [undo_tag_image, h]

theorem undo_success_core (s : SessionState) (nm : String) (t : Tag)
    (hname : s.previous_tag.image_name = some nm)
    (htag : s.previous_tag.tag_name = some t) :
    (undo_tag_image s true).2 = UndoOutcome.success ∧
    ((undo_tag_image s true).1).stats.get (Counter.tag t) =
      s.stats.get (Counter.tag t) - 1 ∧
    ((undo_tag_image s true).1).stats.get Counter.undo =
      s.stats.get Counter.undo + 1 ∧
    (∀ c : Counter, c ≠ Counter.tag t → c ≠ Counter.undo →
      ((undo_tag_image s true).1).stats.get c = s.stats.get c) ∧
    (s.consec.tot - 1 = 0 →
      ((undo_tag_image s true).1).consec =
        { name := some Counter.undo, tot := 1 }) ∧
    (s.consec.tot - 1 ≠ 0 →
      ((undo_tag_image s true).1).consec =
        { name := s.consec.name, tot := s.consec.tot - 1 }) ∧
    ((undo_tag_image s true).1).previous_tag =
      { image_name := none, image_id := none, tag_name := none } := by
  have hguard : ¬ s.previous_tag.image_name = none := by simp [hname]
  have htagundo : Counter.tag t ≠ Counter.undo := by simp
  refine ⟨?_, ?_, ?_, ?_, ?_, ?_, ?_⟩
  · simp [undo_tag_image, hguard, htag]
  · simp only [undo_tag_image, hguard, if_false, htag, if_true]
    by_cases h0 : s.consec.tot - 1 = 0 <;>
      simp [h0, Stats.get_add, htagundo, sub_eq_add_neg]
  · simp only [undo_tag_image, hguard, if_false, htag, if_true]
    by_cases h0 : s.consec.tot - 1 = 0 <;>
      simp [h0, Stats.get_add]
  · intro c hc1 hc2
    simp only [undo_tag_image, hguard, if_false, htag, if_true]
    by_cases h0 : s.consec.tot - 1 = 0 <;>
      simp [h0, Stats.get_add, hc1, hc2]
  · intro h0; simp [undo_tag_image, hguard, htag, h0]
  · intro h0; simp [undo_tag_image, hguard, htag, h0]
  · simp [undo_tag_image, hguard, htag]

/-- C3: a successful `undo_tag_image` (previous tag recorded, move back to
the root folder succeeds) decrements the undone tag's counter, decrements
the streak length (resetting the streak to `(Undo, 1)` when it thereby
reaches 0), increments the `Undo` counter, and clears the previous tag. -/
theorem undo_tag_image_success_spec (s : SessionState) (nm : String) (t : Tag)
    (c : Counter) (hname : s.previous_tag.image_name = some nm)
    (htag : s.previous_tag.tag_name = some t)
    (hc1 : c ≠ Counter.tag t) (hc2 : c ≠ Counter.undo) :
    (undo_tag_image s true).2 = UndoOutcome.success ∧
    ((undo_tag_image s true).1).stats.get (Counter.tag t) =
      s.stats.get (Counter.tag t) - 1 ∧
    ((undo_tag_image s true).1).stats.get Counter.undo =
      s.stats.get Counter.undo + 1 ∧
    ((undo_tag_image s true).1).stats.get c = s.stats.get c ∧
    (s.consec.tot - 1 = 0 →
      ((undo_tag_image s true).1).consec =
        { name := some Counter.undo, tot := 1 }) ∧
    (s.consec.tot - 1 ≠ 0 →
      ((undo_tag_image s true).1).consec =
        { name := s.consec.name, tot := s.consec.tot - 1 }) ∧
    ((undo_tag_image s true).1).previous_tag =
      { image_name := none, image_id := none, tag_name := none } := by
  obtain ⟨h1, h2, h3, h4, h5, h6, h7⟩ := undo_success_core s nm t hname htag
  exact ⟨h1, h2, h3, h4 c hc1 hc2, h5, h6, h7⟩

/-- C3 witness: undoing after two consecutive Simba tags. -/
theorem undo_tag_image_success_spec_witness :
    ((apply_tags init_state [("a", "i1", Tag.Simba), ("b", "i2", Tag.Simba)]
        ).previous_tag.image_name = some "b") ∧
    ((apply_tags init_state [("a", "i1", Tag.Simba), ("b", "i2", Tag.Simba)]
        ).previous_tag.tag_name = some Tag.Simba) ∧
    (Counter.tag Tag.Boo ≠ Counter.tag Tag.Simba) ∧
    (Counter.tag Tag.Boo ≠ Counter.undo) ∧
    ((undo_tag_image (apply_tags init_state
        [("a", "i1", Tag.Simba), ("b", "i2", Tag.Simba)]) true).2 =
      UndoOutcome.success ∧
    ((undo_tag_image (apply_tags init_state
        [("a", "i1", Tag.Simba), ("b", "i2", Tag.Simba)]) true).1).stats.get
        (Counter.tag Tag.Simba) =
      (apply_tags init_state [("a", "i1", Tag.Simba), ("b", "i2", Tag.Simba)]
        ).stats.get (Counter.tag Tag.Simba) - 1 ∧
    ((undo_tag_image (apply_tags init_state
        [("a", "i1", Tag.Simba), ("b", "i2", Tag.Simba)]) true).1).stats.get
        Counter.undo =
      (apply_tags init_state [("a", "i1", Tag.Simba), ("b", "i2", Tag.Simba)]
        ).stats.get Counter.undo + 1 ∧
    ((undo_tag_image (apply_tags init_state
        [("a", "i1", Tag.Simba), ("b", "i2", Tag.Simba)]) true).1).stats.get
        (Counter.tag Tag.Boo) =
      (apply_tags init_state [("a", "i1", Tag.Simba), ("b", "i2", Tag.Simba)]
        ).stats.get (Counter.tag Tag.Boo) ∧
    ((apply_tags init_state [("a", "i1", Tag.Simba), ("b", "i2", Tag.Simba)]
        ).consec.tot - 1 = 0 →
      ((undo_tag_image (apply_tags init_state
          [("a", "i1", Tag.Simba), ("b", "i2", Tag.Simba)]) true).1).consec =
        { name := some Counter.undo, tot := 1 }) ∧
    ((apply_tags init_state [("a", "i1", Tag.Simba), ("b", "i2", Tag.Simba)]
        ).consec.tot - 1 ≠ 0 →
      ((undo_tag_image (apply_tags init_state
          [("a", "i1", Tag.Simba), ("b", "i2", Tag.Simba)]) true).1).consec =
        { name := (apply_tags init_state
            [("a", "i1", Tag.Simba), ("b", "i2", Tag.Simba)]).consec.name,
          tot := (apply_tags init_state
            [("a", "i1", Tag.Simba), ("b", "i2", Tag.Simba)]).consec.tot - 1 }) ∧
    ((undo_tag_image (apply_tags init_state
        [("a", "i1", Tag.Simba), ("b", "i2", Tag.Simba)]) true).1).previous_tag =
      { image_name := none, image_id := none, tag_name := none }) :=
  ⟨by decide, by decide, by decide, by decide,
   undo_tag_image_success_spec
     (apply_tags init_state [("a", "i1", Tag.Simba), ("b", "i2", Tag.Simba)])
     "b" Tag.Simba (Counter.tag Tag.Boo)
     (by decide) (by decide) (by decide) (by decide)⟩

/-- C4: a successful undo straight after a successful tag restores the
tagged label's counter to its pre-tag value and bumps the `Undo` counter;
a second immediate undo fails with "nothing to undo" and changes nothing. -/
theorem tag_then_undo_spec (s : SessionState) (n i : String) (t : Tag) :
    (undo_tag_image (tag_image s n i t true true).1 true).2 =
      UndoOutcome.success ∧
    ((undo_tag_image (tag_image s n i t true true).1 true).1).stats.get
        (Counter.tag t) = s.stats.get (Counter.tag t) ∧
    ((undo_tag_image (tag_image s n i t true true).1 true).1).stats.get
        Counter.undo = s.stats.get Counter.undo + 1 ∧
    undo_tag_image
        ((undo_tag_image (tag_image s n i t true true).1 true).1) true =
      ((undo_tag_image (tag_image s n i t true true).1 true).1,
        UndoOutcome.nothingToUndo) := by
  have hname : ((tag_image s n i t true true).1).previous_tag.image_name =
      some n := by rw [tag_image_previous_tag]
  have htag : ((tag_image s n i t true true).1).previous_tag.tag_name =
      some t := by rw [tag_image_previous_tag]
  obtain ⟨hout, hdec, hundo, hother, -, -, hprev⟩ :=
    undo_success_core ((tag_image s n i t true true).1) n t hname htag
  have hs1get : ((tag_image s n i t true true).1).stats.get (Counter.tag t) =
      s.stats.get (Counter.tag t) + 1 := by
    rw [tag_image_stats, Stats.get_add]; simp
  have hs1undo : ((tag_image s n i t true true).1).stats.get Counter.undo =
      s.stats.get Counter.undo := by
    rw [tag_image_stats, Stats.get_add]; simp
  refine ⟨hout, ?_, ?_, ?_⟩
  · rw [hdec, hs1get]; ring
  · rw [hundo, hs1undo]
  · have hnone : ((undo_tag_image (tag_image s n i t true true).1 true).1
        ).previous_tag.image_name = none := by rw [hprev]
    exact undo_nothing _ true hnone

/-- Number of calls in a tagging trace that carry a given tag. -/
def tagCount (t : Tag) (calls : List (String × String × Tag)) : ℕ :=
  calls.countP (fun x => decide (x.2.2 = t))

theorem apply_tags_get (s : SessionState) (calls : List (String × String × Tag))
    (c : Counter) :
    (apply_tags s calls).stats.get c =
      s.stats.get c +
        (calls.countP (fun x => decide (Counter.tag x.2.2 = c)) : ℤ) := by
  induction calls generalizing s with
  | nil => simp [apply_tags]
  | cons hd rest ih =>
    obtain ⟨n, i, t⟩ := hd
    rw [apply_tags, ih, tag_image_stats, Stats.get_add, List.countP_cons]
    by_cases hc : c = Counter.tag t
    · simp [hc]
      ring
    · have : ¬ (Counter.tag t = c) := fun h => hc h.symm
      simp [hc, this]

theorem apply_tags_total (s : SessionState)
    (calls : List (String × String × Tag)) :
    (apply_tags s calls).stats.total = s.stats.total + calls.length := by
  induction calls generalizing s with
  | nil => simp [apply_tags]
  | cons hd rest ih =>
    obtain ⟨n, i, t⟩ := hd
    rw [apply_tags, ih, tag_image_stats, Stats.total_add]
    simp [List.length_cons]
    ring

/-- C5: starting from the initial session, after any sequence of successful
taggings each tag's counter equals the number of taggings with that tag,
the `Undo` counter is 0, and the sum of all counters equals the number of
successful actions performed (all of them taggings, none undos). -/
theorem apply_tags_counts_spec (calls : List (String × String × Tag)) (t : Tag) :
    (apply_tags init_state calls).stats.get (Counter.tag t) = tagCount t calls ∧
    (apply_tags init_state calls).stats.get Counter.undo = 0 ∧
    (apply_tags init_state calls).stats.total = calls.length := by
  refine ⟨?_, ?_, ?_⟩
  · rw [apply_tags_get, tagCount]
    have hcong : calls.countP (fun x => decide (Counter.tag x.2.2 = Counter.tag t)) =
        calls.countP (fun x => decide (x.2.2 = t)) := by
      apply List.countP_congr
      intro x _
      simp [Counter.tag.injEq]
    rw [hcong]
    cases t <;> simp [init_state, Stats.get]
  · rw [apply_tags_get]
    simp [init_state, Stats.get]
  · rw [apply_tags_total]
    simp [init_state, Stats.total]

/-! ### Brightness estimator -/

theorem channelMean_replicate (f : RGB → ℚ) (n : ℕ) (p : RGB) (hn : n ≠ 0) :
    channelMean f (List.replicate n p) = f p := by
  rw [channelMean, List.map_replicate, List.sum_replicate,
    List.length_replicate, nsmul_eq_mul]
  have hq : (n : ℚ) ≠ 0 := Nat.cast_ne_zero.mpr hn
  field_simp

theorem brightness_uniform (c : ℝ) (hc : 0 ≤ c) : brightness c c c = c := by
  rw [brightness]
  have h : R_CONST * c ^ 2 + G_CONST * c ^ 2 + B_CONST * c ^ 2 = c ^ 2 := by
    rw [R_CONST, G_CONST, B_CONST]; ring
  rw [h, Real.sqrt_sq hc]

theorem imageBrightness_replicate (n : ℕ) (c : ℚ) (hn : n ≠ 0) (hc : 0 ≤ c) :
    imageBrightness (List.replicate n ⟨c, c, c⟩) = (c : ℝ) := by
  rw [imageBrightness, channelMean_replicate _ _ _ hn,
    channelMean_replicate _ _ _ hn, channelMean_replicate _ _ _ hn]
  exact brightness_uniform (c : ℝ) (by exact_mod_cast hc)

/-- C6: brightness is the square root of the weighted sum of the squared
per-channel means (weights 0.299, 0.587, 0.114); on any uniform image with
all channels equal to `c` it is exactly `c`, so uniform black gives 0,
uniform white gives 255, and uniform gray 25 gives exactly 25, which sits
at the (inclusive) auto-discard boundary. -/
theorem brightness_spec (n : ℕ) (c : ℚ) (r g b : ℝ) (hn : n ≠ 0)
    (hc : 0 ≤ c) :
    brightness r g b =
      Real.sqrt (0.299 * r ^ 2 + 0.587 * g ^ 2 + 0.114 * b ^ 2) ∧
    imageBrightness (List.replicate n ⟨c, c, c⟩) = (c : ℝ) ∧
    imageBrightness (List.replicate n ⟨0, 0, 0⟩) = 0 ∧
    imageBrightness (List.replicate n ⟨255, 255, 255⟩) = 255 ∧
    imageBrightness (List.replicate n ⟨25, 25, 25⟩) = 25 ∧
    imageBrightness (List.replicate n ⟨25, 25, 25⟩) ≤
      IMAGE_BRIGHTNESS_THRESHOLD := by
  have h0 := imageBrightness_replicate n 0 hn (by norm_num)
  have h255 := imageBrightness_replicate n 255 hn (by norm_num)
  have h25 := imageBrightness_replicate n 25 hn (by norm_num)
  refine ⟨?_, imageBrightness_replicate n c hn hc, ?_, ?_, ?_, ?_⟩
  · rw [brightness, R_CONST, G_CONST, B_CONST]
  · rw [h0]; norm_num
  · rw [h255]; norm_num
  · rw [h25]; norm_num
  · rw [h25, IMAGE_BRIGHTNESS_THRESHOLD]; norm_num

/-- C6 witness: a two-pixel uniform image of intensity 7 and the weighted
formula at channel means 1, 2, 3. -/
theorem brightness_spec_witness :
    ((2 : ℕ) ≠ 0) ∧ ((0 : ℚ) ≤ 7) ∧
    (brightness 1 2 3 =
      Real.sqrt (0.299 * 1 ^ 2 + 0.587 * 2 ^ 2 + 0.114 * 3 ^ 2) ∧
    imageBrightness (List.replicate 2 ⟨7, 7, 7⟩) = ((7 : ℚ) : ℝ) ∧
    imageBrightness (List.replicate 2 ⟨0, 0, 0⟩) = 0 ∧
    imageBrightness (List.replicate 2 ⟨255, 255, 255⟩) = 255 ∧
    imageBrightness (List.replicate 2 ⟨25, 25, 25⟩) = 25 ∧
    imageBrightness (List.replicate 2 ⟨25, 25, 25⟩) ≤
      IMAGE_BRIGHTNESS_THRESHOLD) :=
  ⟨by decide, by decide, brightness_spec 2 7 1 2 3 (by decide) (by decide)⟩

/-! ### The fetching loop: auto-discard and duplicate guard -/

/-- A single-pixel dark test image (uniform intensity 10). -/
def darkItem : Item :=
  { name := "dark", id := "id-dark", pixels := [{ r := 10, g := 10, b := 10 }] }

/-- A single-pixel bright test image (uniform intensity 100). -/
def brightItem : Item :=
  { name := "bright", id := "id-bright",
    pixels := [{ r := 100, g := 100, b := 100 }] }

/-- A bright test image reusing the id of a just-tagged image. -/
def dupItem : Item :=
  { name := "dup", id := "id-dup",
    pixels := [{ r := 100, g := 100, b := 100 }] }

theorem imageBrightness_single (c : ℚ) (hc : 0 ≤ c) :
    imageBrightness [{ r := c, g := c, b := c }] = (c : ℝ) := by
  have h := imageBrightness_replicate 1 c (by norm_num) hc
  simpa using h

theorem darkItem_le_threshold :
    imageBrightness darkItem.pixels ≤ IMAGE_BRIGHTNESS_THRESHOLD := by
  have h := imageBrightness_single 10 (by norm_num)
  rw [show darkItem.pixels = [{ r := 10, g := 10, b := 10 }] from rfl, h,
    IMAGE_BRIGHTNESS_THRESHOLD]
  norm_num

theorem brightItem_not_le_threshold :
    ¬ imageBrightness brightItem.pixels ≤ IMAGE_BRIGHTNESS_THRESHOLD := by
  have h := imageBrightness_single 100 (by norm_num)
  rw [show brightItem.pixels = [{ r := 100, g := 100, b := 100 }] from rfl, h,
    IMAGE_BRIGHTNESS_THRESHOLD]
  norm_num

theorem dupItem_not_le_threshold :
    ¬ imageBrightness dupItem.pixels ≤ IMAGE_BRIGHTNESS_THRESHOLD := by
  have h := imageBrightness_single 100 (by norm_num)
  rw [show dupItem.pixels = [{ r := 100, g := 100, b := 100 }] from rfl, h,
    IMAGE_BRIGHTNESS_THRESHOLD]
  norm_num

theorem loop_eval_dark_bright :
    main_tagging_loop init_state 0 [darkItem, brightItem] =
      some (brightItem,
        (tag_image init_state darkItem.name darkItem.id
          Tag.AutoDiscard true true).1) := by
  have h1 : ¬ some darkItem.id = init_state.previous_tag.image_id := by decide
  have h2 : ¬ some brightItem.id =
      ((tag_image init_state darkItem.name darkItem.id Tag.AutoDiscard
        true true).1).previous_tag.image_id := by decide
  rw [main_tagging_loop, if_neg h1, if_pos darkItem_le_threshold]
  rw [main_tagging_loop, if_neg h2, if_neg brightItem_not_le_threshold]

/-- C7: the fetching loop only ever returns an image whose brightness check
did not trigger auto-discard (its brightness is strictly above the
threshold), and on fetching a sufficiently dark non-duplicate image it tags
it `Auto-Discard` via `tag_image` and repeats the fetch. -/
theorem main_tagging_loop_autodiscard_spec (s : SessionState) (dup : ℕ)
    (fetches : List Item) (it : Item) (s2 : SessionState)
    (img : Item) (rest : List Item)
    (hres : main_tagging_loop s dup fetches = some (it, s2))
    (hdup : ¬ some img.id = s.previous_tag.image_id)
    (hdark : imageBrightness img.pixels ≤ IMAGE_BRIGHTNESS_THRESHOLD) :
    ¬ imageBrightness it.pixels ≤ IMAGE_BRIGHTNESS_THRESHOLD ∧
    main_tagging_loop s dup (img :: rest) =
      main_tagging_loop
        (tag_image s img.name img.id Tag.AutoDiscard true true).1 dup rest := by
  constructor
  · clear hdup hdark
    induction fetches generalizing s dup with
    | nil => simp [main_tagging_loop] at hres
    | cons x xs ih =>
      rw [main_tagging_loop] at hres
      by_cases h1 : some x.id = s.previous_tag.image_id
      · rw [if_pos h1] at hres
        by_cases h2 : dup + 1 < 3
        · rw [if_pos h2] at hres
          exact ih _ _ hres
        · rw [if_neg h2] at hres
          by_cases h3 : imageBrightness x.pixels ≤ IMAGE_BRIGHTNESS_THRESHOLD
          · rw [if_pos h3] at hres
            exact ih _ _ hres
          · rw [if_neg h3] at hres
            simp only [Option.some.injEq, Prod.mk.injEq] at hres
            rw [← hres.1]
            exact h3
      · rw [if_neg h1] at hres
        by_cases h3 : imageBrightness x.pixels ≤ IMAGE_BRIGHTNESS_THRESHOLD
        · rw [if_pos h3] at hres
          exact ih _ _ hres
        · rw [if_neg h3] at hres
          simp only [Option.some.injEq, Prod.mk.injEq] at hres
          rw [← hres.1]
          exact h3
  · rw [main_tagging_loop, if_neg hdup, if_pos hdark]

/-- C7 witness: a dark image followed by a bright one; the dark one is
auto-discarded and the bright one is returned. -/
theorem main_tagging_loop_autodiscard_spec_witness :
    (main_tagging_loop init_state 0 [darkItem, brightItem] =
      some (brightItem,
        (tag_image init_state darkItem.name darkItem.id
          Tag.AutoDiscard true true).1)) ∧
    (¬ some darkItem.id = init_state.previous_tag.image_id) ∧
    imageBrightness darkItem.pixels ≤ IMAGE_BRIGHTNESS_THRESHOLD ∧
    (¬ imageBrightness brightItem.pixels ≤ IMAGE_BRIGHTNESS_THRESHOLD ∧
     main_tagging_loop init_state 0 (darkItem :: [brightItem]) =
       main_tagging_loop
         (tag_image init_state darkItem.name darkItem.id
           Tag.AutoDiscard true true).1 0 [brightItem]) :=
  ⟨loop_eval_dark_bright, by decide, darkItem_le_threshold,
   main_tagging_loop_autodiscard_spec init_state 0 [darkItem, brightItem]
     brightItem
     (tag_image init_state darkItem.name darkItem.id Tag.AutoDiscard
       true true).1
     darkItem [brightItem] loop_eval_dark_bright (by decide)
     darkItem_le_threshold⟩

/-- C8: on fetching the just-tagged duplicate, the loop refetches after a
wait while the duplicate count is below 3, and once it reaches 3 gives up
and returns the duplicate anyway with the session state untouched; if a
refetch produces a fresh (bright) image, that image is returned instead. -/
theorem duplicate_retry_spec (s : SessionState) (d x : Item) (rest : List Item)
    (hdup : s.previous_tag.image_id = some d.id)
    (hbright : ¬ imageBrightness d.pixels ≤ IMAGE_BRIGHTNESS_THRESHOLD)
    (hx : ¬ some x.id = s.previous_tag.image_id)
    (hxbright : ¬ imageBrightness x.pixels ≤ IMAGE_BRIGHTNESS_THRESHOLD) :
    main_tagging_loop s 0 (d :: d :: d :: rest) = some (d, s) ∧
    main_tagging_loop s 0 (d :: x :: rest) = some (x, s) := by
  have hd : some d.id = s.previous_tag.image_id := hdup.symm
  constructor
  · rw [main_tagging_loop, if_pos hd,
      if_pos (by norm_num : (0 : ℕ) + 1 < 3)]
    rw [main_tagging_loop, if_pos hd,
      if_pos (by norm_num : (1 : ℕ) + 1 < 3)]
    rw [main_tagging_loop, if_pos hd,
      if_neg (by norm_num : ¬ ((2 : ℕ) + 1 < 3)), if_neg hbright]
  · rw [main_tagging_loop, if_pos hd,
      if_pos (by norm_num : (0 : ℕ) + 1 < 3)]
    rw [main_tagging_loop, if_neg hx, if_neg hxbright]

/-- C8 witness: after tagging image "id-dup", a listing that keeps
returning it three times makes the loop give the duplicate up and return
it unchanged; a listing with a fresh image on the second fetch returns the
fresh image. -/
theorem duplicate_retry_spec_witness :
    ((tag_image init_state "dup" "id-dup" Tag.Boo true
        true).1.previous_tag.image_id = some dupItem.id) ∧
    (¬ imageBrightness dupItem.pixels ≤ IMAGE_BRIGHTNESS_THRESHOLD) ∧
    (¬ some brightItem.id = (tag_image init_state "dup" "id-dup" Tag.Boo true
        true).1.previous_tag.image_id) ∧
    (¬ imageBrightness brightItem.pixels ≤ IMAGE_BRIGHTNESS_THRESHOLD) ∧
    (main_tagging_loop (tag_image init_state "dup" "id-dup" Tag.Boo true
        true).1 0 [dupItem, dupItem, dupItem] =
      some (dupItem,
        (tag_image init_state "dup" "id-dup" Tag.Boo true true).1) ∧
    main_tagging_loop (tag_image init_state "dup" "id-dup" Tag.Boo true
        true).1 0 [dupItem, brightItem] =
      some (brightItem,
        (tag_image init_state "dup" "id-dup" Tag.Boo true true).1)) :=
  ⟨by decide, dupItem_not_le_threshold, by decide,
   brightItem_not_le_threshold,
   duplicate_retry_spec
     (tag_image init_state "dup" "id-dup" Tag.Boo true true).1
     dupItem brightItem [] (by decide) dupItem_not_le_threshold
     (by decide) brightItem_not_le_threshold⟩

/-! ### Reachability invariants -/

theorem tag_image_consec (s : SessionState) (n i : String) (t : Tag) :
    ((tag_image s n i t true true).1).consec =
      if s.consec.name = some (Counter.tag t) then
        { name := s.consec.name, tot := s.consec.tot + 1 }
      else
        { name := some (Counter.tag t), tot := 1 } := by
  by_cases h : s.consec.name = some (Counter.tag t) <;> simp [tag_image, h]

/-- The inductive invariant of the session state: counters non-negative,
streak length non-negative and zero only before the first action, the three
previous-tag fields set or cleared together, and a recorded previous tag
always matching the current streak label with positive streak length and
positive counter. -/
def Inv (s : SessionState) : Prop :=
  (∀ c : Counter, 0 ≤ s.stats.get c) ∧
  0 ≤ s.consec.tot ∧
  (s.consec.tot = 0 → s.consec.name = none) ∧
  (s.previous_tag.image_name = none ↔ s.previous_tag.image_id = none) ∧
  (s.previous_tag.image_name = none ↔ s.previous_tag.tag_name = none) ∧
  (∀ t : Tag, s.previous_tag.tag_name = some t →
    s.consec.name = some (Counter.tag t) ∧ 1 ≤ s.consec.tot ∧
      1 ≤ s.stats.get (Counter.tag t))

theorem Inv_init : Inv init_state := by
  refine ⟨?_, ?_, ?_, ?_, ?_, ?_⟩ <;> decide

theorem Inv_tag (s : SessionState) (n i : String) (t : Tag) (gOk mOk : Bool)
    (h : Inv s) : Inv (tag_image s n i t gOk mOk).1 := by
  obtain ⟨h1, h2, h3, h4, h5, h6⟩ := h
  cases gOk with
  | false => exact ⟨h1, h2, h3, h4, h5, h6⟩
  | true =>
    cases mOk with
    | false => exact ⟨h1, h2, h3, h4, h5, h6⟩
    | true =>
      refine ⟨?_, ?_, ?_, ?_, ?_, ?_⟩
      · intro c
        rw [tag_image_stats, Stats.get_add]
        have := h1 c
        by_cases hc : c = Counter.tag t
        · rw [if_pos hc]; omega
        · rw [if_neg hc]; omega
      · rw [tag_image_consec]
        by_cases hn : s.consec.name = some (Counter.tag t)
        · rw [if_pos hn]; simp; omega
        · rw [if_neg hn]; simp
      · rw [tag_image_consec]
        by_cases hn : s.consec.name = some (Counter.tag t)
        · rw [if_pos hn]; intro habs; simp at habs; omega
        · rw [if_neg hn]; intro habs; simp at habs
      · rw [tag_image_previous_tag]; simp
      · rw [tag_image_previous_tag]; simp
      · intro t2 ht2
        rw [tag_image_previous_tag] at ht2
        simp at ht2
        subst ht2
        rw [tag_image_consec, tag_image_stats, Stats.get_add, if_pos rfl]
        have := h1 (Counter.tag t)
        by_cases hn : s.consec.name = some (Counter.tag t)
        · rw [if_pos hn]
          exact ⟨hn.symm ▸ rfl, by simp; omega, by omega⟩
        · rw [if_neg hn]
          exact ⟨rfl, by simp, by omega⟩

theorem Inv_undo (s : SessionState) (mOk : Bool) (h : Inv s) :
    Inv (undo_tag_image s mOk).1 := by
  obtain ⟨h1, h2, h3, h4, h5, h6⟩ := h
  by_cases hguard : s.previous_tag.image_name = none
  · rw [undo_nothing s mOk hguard]
    exact ⟨h1, h2, h3, h4, h5, h6⟩
  · obtain ⟨nm, hnm⟩ : ∃ nm, s.previous_tag.image_name = some nm := by
      cases hm : s.previous_tag.image_name with
      | some nm => exact ⟨nm, rfl⟩
      | none => exact absurd hm hguard
    obtain ⟨t, ht⟩ : ∃ t, s.previous_tag.tag_name = some t := by
      cases hm : s.previous_tag.tag_name with
      | some t => exact ⟨t, rfl⟩
      | none => exact absurd (h5.mpr hm) hguard
    obtain ⟨hname, htot, hget⟩ := h6 t ht
    cases mOk with
    | false =>
      have hres : undo_tag_image s false = (s, UndoOutcome.storageError) := by
        simp [undo_tag_image, hguard, ht]
      rw [hres]
      exact ⟨h1, h2, h3, h4, h5, h6⟩
    | true =>
      obtain ⟨hc1, hc2, hc3, hc4, hc5, hc6, hc7⟩ := undo_success_core s nm t hnm ht
      refine ⟨?_, ?_, ?_, ?_, ?_, ?_⟩
      · intro c
        by_cases hct : c = Counter.tag t
        · subst hct; rw [hc2]; omega
        · by_cases hcu : c = Counter.undo
          · subst hcu; rw [hc3]; have := h1 Counter.undo; omega
          · rw [hc4 c hct hcu]; exact h1 c
      · by_cases h0 : s.consec.tot - 1 = 0
        · rw [hc5 h0]; simp
        · rw [hc6 h0]; simp; omega
      · by_cases h0 : s.consec.tot - 1 = 0
        · rw [hc5 h0]; intro habs; simp at habs
        · rw [hc6 h0]; intro habs; simp at habs; omega
      · rw [hc7]
      · rw [hc7]; simp
      · intro t2 ht2
        rw [hc7] at ht2
        simp at ht2

theorem main_tagging_loop_preserves (P : SessionState → Prop)
    (hP : ∀ (s : SessionState) (n i : String),
      P s → P (tag_image s n i Tag.AutoDiscard true true).1)
    (fetches : List Item) :
    ∀ (s : SessionState) (dup : ℕ) (it : Item) (s2 : SessionState),
      main_tagging_loop s dup fetches = some (it, s2) → P s → P s2 := by
  induction fetches with
  | nil =>
    intro s dup it s2 hres
    simp [main_tagging_loop] at hres
  | cons x xs ih =>
    intro s dup it s2 hres hs
    rw [main_tagging_loop] at hres
    by_cases h1 : some x.id = s.previous_tag.image_id
    · rw [if_pos h1] at hres
      by_cases h2 : dup + 1 < 3
      · rw [if_pos h2] at hres
        exact ih _ _ _ _ hres hs
      · rw [if_neg h2] at hres
        by_cases h3 : imageBrightness x.pixels ≤ IMAGE_BRIGHTNESS_THRESHOLD
        · rw [if_pos h3] at hres
          exact ih _ _ _ _ hres (hP s x.name x.id hs)
        · rw [if_neg h3] at hres
          simp only [Option.some.injEq, Prod.mk.injEq] at hres
          exact hres.2 ▸ hs
    · rw [if_neg h1] at hres
      by_cases h3 : imageBrightness x.pixels ≤ IMAGE_BRIGHTNESS_THRESHOLD
      · rw [if_pos h3] at hres
        exact ih _ _ _ _ hres (hP s x.name x.id hs)
      · rw [if_neg h3] at hres
        simp only [Option.some.injEq, Prod.mk.injEq] at hres
        exact hres.2 ▸ hs

theorem reachable_inv (s : SessionState) (h : Reachable s) : Inv s := by
  induction h with
  | init => exact Inv_init
  | tag s n i t gOk mOk _ ih => exact Inv_tag s n i t gOk mOk ih
  | undo s mOk _ ih => exact Inv_undo s mOk ih
  | fetch s dup fetches it s2 _ hloop ih =>
    exact main_tagging_loop_preserves Inv
      (fun s3 n i h3 => Inv_tag s3 n i Tag.AutoDiscard true true h3)
      fetches s dup it s2 hloop ih

/-- C9: in every reachable session state every counter is non-negative, the
streak length is non-negative and zero only while the streak label is still
`None`, and the previous-tag record is non-null exactly when an undo is
currently possible (an `undo_tag_image` whose storage move succeeds runs to
success rather than "nothing to undo"). -/
theorem reachable_state_invariants (s : SessionState) (c : Counter)
    (h : Reachable s) :
    0 ≤ s.stats.get c ∧
    0 ≤ s.consec.tot ∧
    (s.consec.tot = 0 → s.consec.name = none) ∧
    (¬ s.previous_tag.image_name = none ↔
      (undo_tag_image s true).2 = UndoOutcome.success) := by
  obtain ⟨h1, h2, h3, h4, h5, h6⟩ := reachable_inv s h
  refine ⟨h1 c, h2, h3, ?_, ?_⟩
  · intro hne
    obtain ⟨nm, hnm⟩ : ∃ nm, s.previous_tag.image_name = some nm := by
      cases hm : s.previous_tag.image_name with
      | some nm => exact ⟨nm, rfl⟩
      | none => exact absurd hm hne
    obtain ⟨t, ht⟩ : ∃ t, s.previous_tag.tag_name = some t := by
      cases hm : s.previous_tag.tag_name with
      | some t => exact ⟨t, rfl⟩
      | none => exact absurd (h5.mpr hm) hne
    exact (undo_success_core s nm t hnm ht).1
  · intro hsucc hnone
    rw [undo_nothing s true hnone] at hsucc
    simp at hsucc

/-- C9 witness: the state reached by tagging one image as Discard. -/
theorem reachable_state_invariants_witness :
    0 ≤ ((tag_image init_state "w" "wid" Tag.Discard true true).1).stats.get
      (Counter.tag Tag.Discard) ∧
    0 ≤ ((tag_image init_state "w" "wid" Tag.Discard true true).1).consec.tot ∧
    (((tag_image init_state "w" "wid" Tag.Discard true true).1).consec.tot = 0 →
      ((tag_image init_state "w" "wid" Tag.Discard true true).1).consec.name =
        none) ∧
    (¬ ((tag_image init_state "w" "wid" Tag.Discard true
          true).1).previous_tag.image_name = none ↔
      (undo_tag_image (tag_image init_state "w" "wid" Tag.Discard true
        true).1 true).2 = UndoOutcome.success) :=
  reachable_state_invariants
    (tag_image init_state "w" "wid" Tag.Discard true true).1
    (Counter.tag Tag.Discard)
    (Reachable.tag init_state "w" "wid" Tag.Discard true true Reachable.init)

/-- C10: in every reachable state with a recorded previous tag, the streak
label equals that tag, the streak length and that tag's counter are at
least 1, and therefore the decrements of a permitted undo leave every
counter and the streak length non-negative. -/
theorem reachable_undo_safety (s : SessionState) (t : Tag) (c : Counter)
    (h : Reachable s) (hprev : s.previous_tag.tag_name = some t) :
    s.consec.name = some (Counter.tag t) ∧
    1 ≤ s.consec.tot ∧
    1 ≤ s.stats.get (Counter.tag t) ∧
    0 ≤ ((undo_tag_image s true).1).stats.get c ∧
    0 ≤ ((undo_tag_image s true).1).consec.tot := by
  have hInv := reachable_inv s h
  obtain ⟨hname, htot, hget⟩ := hInv.2.2.2.2.2 t hprev
  have hInv2 : Inv (undo_tag_image s true).1 := Inv_undo s true hInv
  exact ⟨hname, htot, hget, hInv2.1 c, hInv2.2.1⟩

/-- C10 witness: the state reached by tagging one image as Simba, checked
at the Simba counter. -/
theorem reachable_undo_safety_witness :
    (((tag_image init_state "p" "pid" Tag.Simba true
        true).1).previous_tag.tag_name = some Tag.Simba) ∧
    (((tag_image init_state "p" "pid" Tag.Simba true true).1).consec.name =
      some (Counter.tag Tag.Simba) ∧
    1 ≤ ((tag_image init_state "p" "pid" Tag.Simba true true).1).consec.tot ∧
    1 ≤ ((tag_image init_state "p" "pid" Tag.Simba true true).1).stats.get
      (Counter.tag Tag.Simba) ∧
    0 ≤ ((undo_tag_image (tag_image init_state "p" "pid" Tag.Simba true
        true).1 true).1).stats.get (Counter.tag Tag.Simba) ∧
    0 ≤ ((undo_tag_image (tag_image init_state "p" "pid" Tag.Simba true
        true).1 true).1).consec.tot) :=
  ⟨by decide,
   reachable_undo_safety
     (tag_image init_state "p" "pid" Tag.Simba true true).1
     Tag.Simba (Counter.tag Tag.Simba)
     (Reachable.tag init_state "p" "pid" Tag.Simba true true Reachable.init)
     (by decide)⟩

end CatmonImgTag
